import Mathlib

/-!
# Verification of the WebRTC call core of the nimo project-management app

This file shallowly embeds the call state machine, media track controller,
peer-connection registry and signaling side effects implemented in the
application context provider (`AppProvider`).  Each operation of the source
is translated into a pure step function on an explicit `CallState`; the
asynchronous outcomes of the platform collaborators (media acquisition,
offer/answer creation, transport connectivity, database inserts) are
parameters of the corresponding operation, so a single Lean function covers
every success/failure interleaving of the source's `async` code.  Outbound
signaling envelopes and external side effects (database writes, capture
requests) are returned as logs next to the successor state.
-/

namespace Nimo

/-- Kind of a track on the local capture stream.  The source distinguishes
camera video tracks from screen-share video tracks by their label /
`displaySurface` setting; we record the distinction directly. -/
inductive TrackKind where
  | audio
  | cameraVideo
  | screenVideo
deriving DecidableEq

/-- A media track: its kind and its `enabled` flag (the source mutes by
setting `enabled = false`; it removes tracks by `stop()` + `removeTrack`). -/
structure Track where
  kind : TrackKind
  enabled : Bool
deriving DecidableEq

/-- `true` on audio tracks (`stream.getAudioTracks()`). -/
def Track.isAudio : Track → Bool
  | ⟨.audio, _⟩ => true
  | _ => false

/-- `true` on camera video tracks (video tracks whose label is not a screen
surface). -/
def Track.isCam : Track → Bool
  | ⟨.cameraVideo, _⟩ => true
  | _ => false

/-- `true` on screen-share video tracks (label includes `screen` or
`displaySurface` is set). -/
def Track.isScreen : Track → Bool
  | ⟨.screenVideo, _⟩ => true
  | _ => false

/-- `true` on any video track (`stream.getVideoTracks()`). -/
def Track.isVideo (t : Track) : Bool := t.isCam || t.isScreen

/-- The pending incoming call stored by `setIncomingCall`: caller id,
arrival timestamp, and the remote session description (abstracted to a
string). -/
structure IncomingCallRec where
  callerId : String
  timestamp : Nat
  offer : String
deriving DecidableEq

/-- The `type` field of a signaling envelope (`SignalData['type']`). -/
inductive SigType where
  | OFFER
  | ANSWER
  | CANDIDATE
  | HANGUP
  | USER_ONLINE
deriving DecidableEq

/-- A signaling envelope as broadcast by `sendSignal`; the payload is not
needed by any claim and is omitted. -/
structure Envelope where
  ty : SigType
  senderId : String
  recipientId : Option String
deriving DecidableEq

/-- External side effects of the handlers: database inserts performed in the
missed-call branch of the HANGUP handler (together with the returned error
status of each insert) and media capture requests (`getUserMedia` /
`getDisplayMedia`). -/
inductive Eff where
  | notifInsert (recipientId senderId : String) (ok : Bool)
  | msgInsert (senderId recipientId : String) (ok : Bool)
  | reqUserMedia
  | reqDisplayMedia
deriving DecidableEq

/-- The mutable session state of the call core: `incomingCall`, `isInCall`
and `activeCallData` React states, the local stream (as its track list),
the peer-connection registry `peerConnectionsRef` (as the list of remote
ids holding an entry), and the media flags. -/
structure CallState where
  incomingCall : Option IncomingCallRec
  isInCall : Bool
  activeCallData : Option (List String)
  localStream : Option (List Track)
  registry : List String
  isScreenSharing : Bool
  isMicOn : Bool
  isCameraOn : Bool
deriving DecidableEq

/-- The state at session start: everything idle and empty. -/
def initState : CallState :=
  { incomingCall := none
    isInCall := false
    activeCallData := none
    localStream := none
    registry := []
    isScreenSharing := false
    isMicOn := false
    isCameraOn := false }

/-- Result of one operation: successor state, the envelopes handed to the
transport, and the external side effects performed. -/
structure StepOut where
  st : CallState
  envs : List Envelope
  effs : List Eff
deriving DecidableEq

/-- `sendSignal`: fire-and-forget broadcast that silently drops the envelope
when the signaling channel is not in a confirmed-connected state. -/
def sendSignal (connected : Bool) (me : String) (ty : SigType)
    (recipient : Option String) : List Envelope :=
  if connected then [⟨ty, me, recipient⟩] else []

/-- `peerConnectionsRef.current.set(id, pc)`: map insertion keyed by remote
id — an existing key keeps the id set unchanged. -/
def registryInsert (reg : List String) (r : String) : List String :=
  if r ∈ reg then reg else reg ++ [r]

/-- The stream produced by `getUserMedia({video: false, audio: true})`
followed by disabling every audio track (calls start muted by policy). -/
def mutedAudioStream : List Track := [⟨.audio, false⟩]

/-- The track list of the local stream, empty when no stream exists. -/
def streamTracks (s : CallState) : List Track := s.localStream.getD []

/-- Number of video tracks on a track list. -/
def videoCount (l : List Track) : Nat := l.countP (fun t => t.isVideo)

/-- Number of camera tracks on a track list. -/
def camCount (l : List Track) : Nat := l.countP (fun t => t.isCam)

/-- Number of screen-share tracks on a track list. -/
def screenCount (l : List Track) : Nat := l.countP (fun t => t.isScreen)

/-- Concatenation of the lists produced for each element, in order. -/
def concatMap (f : α → List β) : List α → List β
  | [] => []
  | a :: as => f a ++ concatMap f as

/-- `cleanupCall`: stop all local tracks and clear the stream, close and
clear every registry entry, leave the call and reset every media flag.
(The pending `incomingCall` is not touched by `cleanupCall`.) -/
def cleanupCall (s : CallState) : CallState :=
  { s with localStream := none
           isInCall := false
           activeCallData := none
           registry := []
           isScreenSharing := false
           isMicOn := false
           isCameraOn := false }

/-- `handleRemoteHangup(senderId)`: close and delete the sender's registry
entry, drop its remote stream, remove it from the participants; when the
participant list becomes empty run `cleanupCall`, and when no call data
exists leave the call fields untouched. -/
def handleRemoteHangup (s : CallState) (senderId : String) : CallState :=
  let s1 := { s with registry := s.registry.filter (fun r => r ≠ senderId) }
  match s1.activeCallData with
  | none => s1
  | some ps =>
    let newIds := ps.filter (fun i => i ≠ senderId)
    if newIds = [] then cleanupCall s1
    else { s1 with activeCallData := some newIds }

/-- `renegotiate`: no-op without a local stream; otherwise, for every
registry entry, create a fresh offer (`offerOk` tells whether creation
succeeded for that peer; a failure is logged and the loop continues) and
send it as an OFFER envelope to that peer. -/
def renegotiate (me : String) (s : CallState) (offerOk : String → Bool)
    (connected : Bool) : List Envelope :=
  match s.localStream with
  | none => []
  | some _ =>
    concatMap
      (fun r => if offerOk r then sendSignal connected me .OFFER (some r) else [])
      s.registry

/-- The per-recipient loop of `startGroupCall`: create a registry entry for
each recipient (before any offer work), then create and send an OFFER when
offer creation succeeds for that recipient; a per-recipient failure is
caught and logged. -/
def callLoop (me : String) (reg : List String) (recipients : List String)
    (offerOk : String → Bool) (connected : Bool) : List String × List Envelope :=
  match recipients with
  | [] => (reg, [])
  | r :: rest =>
    let reg1 := registryInsert reg r
    let e := if offerOk r then sendSignal connected me .OFFER (some r) else []
    let out := callLoop me reg1 rest offerOk connected
    (out.1, e ++ out.2)

/-- `startGroupCall(recipientIds)`: no-op on an empty recipient list.
Acquires a muted audio stream when none exists (`mediaOk = false` models a
`getUserMedia` rejection: alert and return with no state change).  Then
optimistically enters the call with `activeCallData = recipientIds` and
runs the per-recipient connection loop. -/
def startGroupCall (me : String) (s : CallState) (recipients : List String)
    (mediaOk : Bool) (offerOk : String → Bool) (connected : Bool) : StepOut :=
  if recipients = [] then ⟨s, [], []⟩
  else
    match s.localStream with
    | some _ =>
      let s1 := { s with isInCall := true, activeCallData := some recipients }
      let out := callLoop me s1.registry recipients offerOk connected
      ⟨{ s1 with registry := out.1 }, out.2, []⟩
    | none =>
      if mediaOk then
        let s0 := { s with localStream := some mutedAudioStream
                           isMicOn := false
                           isCameraOn := false }
        let s1 := { s0 with isInCall := true, activeCallData := some recipients }
        let out := callLoop me s1.registry recipients offerOk connected
        ⟨{ s1 with registry := out.1 }, out.2, [.reqUserMedia]⟩
      else ⟨s, [], [.reqUserMedia]⟩

/-- `initiateCallConnection(recipientId)`: ensure a (muted) local stream
exists — a media failure logs and returns before creating any registry
entry — then create the registry entry, and send an OFFER when offer
creation succeeds; an offer failure is caught by the surrounding
`try`/`catch` after the entry was already created. -/
def initiateCallConnection (me : String) (s : CallState) (recipientId : String)
    (mediaOk offerOk connected : Bool) : StepOut :=
  match s.localStream with
  | some _ =>
    let s2 := { s with registry := registryInsert s.registry recipientId }
    if offerOk then ⟨s2, sendSignal connected me .OFFER (some recipientId), []⟩
    else ⟨s2, [], []⟩
  | none =>
    if mediaOk then
      let s1 := { s with localStream := some mutedAudioStream, isMicOn := false }
      let s2 := { s1 with registry := registryInsert s1.registry recipientId }
      if offerOk then
        ⟨s2, sendSignal connected me .OFFER (some recipientId), [.reqUserMedia]⟩
      else ⟨s2, [], [.reqUserMedia]⟩
    else ⟨s, [], [.reqUserMedia]⟩

/-- `addToCall(recipientId)`: guarded on being in a call with call data;
awaits `initiateCallConnection` and then appends the recipient to the
participant list (the source appends unconditionally — the connection
attempt catches its own errors). -/
def addToCall (me : String) (s : CallState) (recipientId : String)
    (mediaOk offerOk connected : Bool) : StepOut :=
  if s.isInCall = true ∧ s.activeCallData ≠ none then
    let o := initiateCallConnection me s recipientId mediaOk offerOk connected
    ⟨{ o.st with
        activeCallData := o.st.activeCallData.map (fun ps => ps ++ [recipientId]) },
      o.envs, o.effs⟩
  else ⟨s, [], []⟩

/-- `acceptIncomingCall`: no-op without a pending offer.  Acquire a muted
audio stream (failure: log and return), create the caller's registry entry,
then apply the stored offer / create, set and send the ANSWER
(`negotiationOk = false` models a rejection of one of those awaits: the
outer `catch` logs and the phase transition never runs).  On success enter
the call with the caller as only participant and clear the pending offer. -/
def acceptIncomingCall (me : String) (s : CallState)
    (mediaOk negotiationOk connected : Bool) : StepOut :=
  match s.incomingCall with
  | none => ⟨s, [], []⟩
  | some ic =>
    if mediaOk then
      let s1 := { s with localStream := some mutedAudioStream
                         isMicOn := false
                         isCameraOn := false }
      let s2 := { s1 with registry := registryInsert s1.registry ic.callerId }
      if negotiationOk then
        ⟨{ s2 with isInCall := true
                   activeCallData := some [ic.callerId]
                   incomingCall := none },
          sendSignal connected me .ANSWER (some ic.callerId), [.reqUserMedia]⟩
      else ⟨s2, [], [.reqUserMedia]⟩
    else ⟨s, [], [.reqUserMedia]⟩

/-- `rejectIncomingCall`: when an offer is pending, send HANGUP to the
pending caller and clear the stored offer; nothing else is touched and no
media is requested. -/
def rejectIncomingCall (me : String) (s : CallState) (connected : Bool) : StepOut :=
  match s.incomingCall with
  | none => ⟨s, [], []⟩
  | some ic =>
    ⟨{ s with incomingCall := none },
      sendSignal connected me .HANGUP (some ic.callerId), []⟩

/-- `endCall`: send HANGUP to every current participant (each send subject
to the transport's connected gate), then `cleanupCall` unconditionally. -/
def endCall (me : String) (s : CallState) (connected : Bool) : StepOut :=
  let envs :=
    match s.activeCallData with
    | none => []
    | some ps => concatMap (fun pid => sendSignal connected me .HANGUP (some pid)) ps
  ⟨cleanupCall s, envs, []⟩

/-- The OFFER case of the signaling handler.  While in a call: an offer
from a non-participant is dropped silently; an offer from a participant is
a renegotiation answered on the existing registry entry (`renegOk = false`
models a rejected await: state is unchanged and no ANSWER is sent).  While
not in a call the offer is stored as the pending incoming call —
overwriting any previously stored one. -/
def recvOffer (me : String) (s : CallState) (senderId sdp : String) (ts : Nat)
    (renegOk connected : Bool) : StepOut :=
  let ps := s.activeCallData.getD []
  if s.isInCall = true ∧ senderId ∉ ps then ⟨s, [], []⟩
  else if s.isInCall = true ∧ senderId ∈ ps then
    if senderId ∈ s.registry ∧ renegOk = true then
      ⟨s, sendSignal connected me .ANSWER (some senderId), []⟩
    else ⟨s, [], []⟩
  else ⟨{ s with incomingCall := some ⟨senderId, ts, sdp⟩ }, [], []⟩

/-- The ANSWER case of the signaling handler: only when the sender holds a
registry entry, apply the remote description (`applyOk = false` models a
rejected await, leaving everything unchanged) and add the sender to the
participants when not already listed. -/
def recvAnswer (s : CallState) (senderId : String) (applyOk : Bool) : StepOut :=
  if senderId ∈ s.registry ∧ applyOk = true then
    let data :=
      match s.activeCallData with
      | none => none
      | some ps => if senderId ∈ ps then some ps else some (ps ++ [senderId])
    ⟨{ s with activeCallData := data }, [], []⟩
  else ⟨s, [], []⟩

/-- The CANDIDATE case of the signaling handler: `addIceCandidate` is
applied to the matching registry entry when present (inside a `try`/`catch`)
and only mutates the connection object itself — no session state, envelope
or external effect is produced on any path. -/
def recvCandidate (s : CallState) (senderId : String) : StepOut := ⟨s, [], []⟩

/-- The HANGUP case of the signaling handler.  When the sender is the
pending incoming caller: insert one missed-call notification row and one
missed-call chat message row (each insert returns an error status that is
only logged), then clear the pending offer.  In every case, finish with
`handleRemoteHangup`. -/
def recvHangup (me : String) (s : CallState) (senderId : String)
    (notifOk msgOk : Bool) : StepOut :=
  match s.incomingCall with
  | some ic =>
    if ic.callerId = senderId then
      ⟨handleRemoteHangup { s with incomingCall := none } senderId, [],
        [.notifInsert me senderId notifOk, .msgInsert senderId me msgOk]⟩
    else ⟨handleRemoteHangup s senderId, [], []⟩
  | none => ⟨handleRemoteHangup s senderId, [], []⟩

/-- `toggleMic`: no-op without a local stream or without audio tracks;
otherwise flip the `enabled` flag of every audio track to the new mic
status, and when the flip turns the mic on, run a full renegotiation
round. -/
def toggleMic (me : String) (s : CallState) (offerOk : String → Bool)
    (connected : Bool) : StepOut :=
  match s.localStream with
  | none => ⟨s, [], []⟩
  | some tracks =>
    if tracks.any (fun t => t.isAudio) then
      let newStatus := !s.isMicOn
      let tracks1 :=
        tracks.map (fun t => if t.isAudio then { t with enabled := newStatus } else t)
      let s1 := { s with localStream := some tracks1, isMicOn := newStatus }
      if newStatus then ⟨s1, renegotiate me s1 offerOk connected, []⟩
      else ⟨s1, [], []⟩
    else ⟨s, [], []⟩

/-- `stopScreenSharing`: guarded to a non-empty registry and an existing
stream; stops and removes every screen track, resets the screen-share and
camera flags, replaces the outbound video senders, and renegotiates. -/
def stopScreenSharing (me : String) (s : CallState) (offerOk : String → Bool)
    (connected : Bool) : StepOut :=
  if s.registry = [] ∨ s.localStream = none then ⟨s, [], []⟩
  else
    let tracks := streamTracks s
    let s1 := { s with localStream := some (tracks.filter (fun t => !t.isScreen))
                       isScreenSharing := false
                       isCameraOn := false }
    ⟨s1, renegotiate me s1 offerOk connected, []⟩

/-- `toggleCamera`: no-op without a local stream.  Turning off stops and
removes exactly the camera tracks (screen tracks are kept) and replaces the
outbound senders without renegotiating.  Turning on requests a camera track
(`camOk = false`: log and no state change), first runs `stopScreenSharing`
when screen sharing is active, then adds the camera track and
renegotiates. -/
def toggleCamera (me : String) (s : CallState) (camOk : Bool)
    (offerOk : String → Bool) (connected : Bool) : StepOut :=
  match s.localStream with
  | none => ⟨s, [], []⟩
  | some tracks =>
    if s.isCameraOn then
      ⟨{ s with localStream := some (tracks.filter (fun t => !t.isCam))
                isCameraOn := false }, [], []⟩
    else
      if camOk then
        let o :=
          if s.isScreenSharing then stopScreenSharing me s offerOk connected
          else ⟨s, [], []⟩
        let tracks1 := streamTracks o.st
        let s2 := { o.st with
                      localStream := some (tracks1 ++ [⟨.cameraVideo, true⟩])
                      isCameraOn := true }
        ⟨s2, o.envs ++ renegotiate me s2 offerOk connected, [.reqUserMedia]⟩
      else ⟨s, [], [.reqUserMedia]⟩

/-- `toggleScreenShare`: total no-op when the registry is empty or no local
stream exists.  When sharing, stop sharing.  Otherwise request display
capture (`dispOk = false`: log and no state change), stop every video track
first when the camera is on, add the screen track and renegotiate. -/
def toggleScreenShare (me : String) (s : CallState) (dispOk : Bool)
    (offerOk : String → Bool) (connected : Bool) : StepOut :=
  if s.registry = [] ∨ s.localStream = none then ⟨s, [], []⟩
  else if s.isScreenSharing then stopScreenSharing me s offerOk connected
  else
    if dispOk then
      let tracks := streamTracks s
      let s1 :=
        if s.isCameraOn then
          { s with localStream := some (tracks.filter (fun t => !t.isVideo))
                   isCameraOn := false }
        else s
      let tracks1 := streamTracks s1
      let s2 := { s1 with
                    localStream := some (tracks1 ++ [⟨.screenVideo, true⟩])
                    isScreenSharing := true }
      ⟨s2, renegotiate me s2 offerOk connected, [.reqDisplayMedia]⟩
    else ⟨s, [], [.reqDisplayMedia]⟩

/-- One user action or inbound signaling event, together with the outcomes
of its asynchronous collaborator calls. -/
inductive Op where
  | startGroupCall (recipients : List String) (mediaOk : Bool)
      (offerOk : String → Bool) (connected : Bool)
  | addToCall (recipientId : String) (mediaOk offerOk connected : Bool)
  | acceptIncomingCall (mediaOk negotiationOk connected : Bool)
  | rejectIncomingCall (connected : Bool)
  | endCall (connected : Bool)
  | recvOffer (senderId sdp : String) (ts : Nat) (renegOk connected : Bool)
  | recvAnswer (senderId : String) (applyOk : Bool)
  | recvCandidate (senderId : String)
  | recvHangup (senderId : String) (notifOk msgOk : Bool)
  | toggleMic (offerOk : String → Bool) (connected : Bool)
  | toggleCamera (camOk : Bool) (offerOk : String → Bool) (connected : Bool)
  | toggleScreenShare (dispOk : Bool) (offerOk : String → Bool) (connected : Bool)

/-- Dispatch one operation to its step function. -/
def step (me : String) (s : CallState) : Op → StepOut
  | .startGroupCall recipients mediaOk offerOk connected =>
      startGroupCall me s recipients mediaOk offerOk connected
  | .addToCall recipientId mediaOk offerOk connected =>
      addToCall me s recipientId mediaOk offerOk connected
  | .acceptIncomingCall mediaOk negotiationOk connected =>
      acceptIncomingCall me s mediaOk negotiationOk connected
  | .rejectIncomingCall connected => rejectIncomingCall me s connected
  | .endCall connected => endCall me s connected
  | .recvOffer senderId sdp ts renegOk connected =>
      recvOffer me s senderId sdp ts renegOk connected
  | .recvAnswer senderId applyOk => recvAnswer s senderId applyOk
  | .recvCandidate senderId => recvCandidate s senderId
  | .recvHangup senderId notifOk msgOk => recvHangup me s senderId notifOk msgOk
  | .toggleMic offerOk connected => toggleMic me s offerOk connected
  | .toggleCamera camOk offerOk connected => toggleCamera me s camOk offerOk connected
  | .toggleScreenShare dispOk offerOk connected =>
      toggleScreenShare me s dispOk offerOk connected

/-- The state after running a sequence of operations. -/
def applyOps (me : String) (s : CallState) : List Op → CallState
  | [] => s
  | op :: rest => applyOps me (step me s op).st rest

/-- State, envelope log and effect log after a sequence of operations. -/
def runOps (me : String) (s : CallState) : List Op → CallState × List Envelope × List Eff
  | [] => (s, [], [])
  | op :: rest =>
    let o := step me s op
    let out := runOps me o.st rest
    (out.1, o.envs ++ out.2.1, o.effs ++ out.2.2)

/-! ## Helper lemmas about the registry, the connection loops and counts -/

theorem mem_registryInsert_self (reg : List String) (r : String) :
    r ∈ registryInsert reg r := by
  unfold registryInsert
  split
  · assumption
  · simp

theorem mem_registryInsert_of (reg : List String) (r a : String) (h : a ∈ reg) :
    a ∈ registryInsert reg r := by
  unfold registryInsert
  split
  · exact h
  · exact List.mem_append_left _ h

theorem mem_concatMap_of (f : α → List β) (l : List α) (a : α) (b : β)
    (ha : a ∈ l) (hb : b ∈ f a) : b ∈ concatMap f l := by
  induction l with
  | nil => cases ha
  | cons x xs ih =>
    rcases List.mem_cons.mp ha with h | h
    · subst h
      exact List.mem_append_left _ hb
    · exact List.mem_append_right _ (ih h)

theorem callLoop_reg_mono (me : String) (reg recipients : List String)
    (offerOk : String → Bool) (connected : Bool) (a : String) (ha : a ∈ reg) :
    a ∈ (callLoop me reg recipients offerOk connected).1 := by
  induction recipients generalizing reg with
  | nil => simpa [callLoop] using ha
  | cons r rest ih =>
    simp only [callLoop]
    exact ih (registryInsert reg r) (mem_registryInsert_of reg r a ha)

theorem callLoop_reg_mem (me : String) (reg recipients : List String)
    (offerOk : String → Bool) (connected : Bool) (r : String) (hr : r ∈ recipients) :
    r ∈ (callLoop me reg recipients offerOk connected).1 := by
  induction recipients generalizing reg with
  | nil => cases hr
  | cons a rest ih =>
    simp only [callLoop]
    rcases List.mem_cons.mp hr with h | h
    · subst h
      exact callLoop_reg_mono me _ rest offerOk connected r (mem_registryInsert_self reg r)
    · exact ih (registryInsert reg a) h

theorem mem_callLoop_envs (me : String) (reg recipients : List String)
    (offerOk : String → Bool) (r : String) (hr : r ∈ recipients)
    (hok : offerOk r = true) :
    Envelope.mk .OFFER me (some r) ∈ (callLoop me reg recipients offerOk true).2 := by
  induction recipients generalizing reg with
  | nil => cases hr
  | cons a rest ih =>
    simp only [callLoop]
    rcases List.mem_cons.mp hr with h | h
    · subst h
      rw [hok]
      exact List.mem_append_left _ (by simp [sendSignal])
    · exact List.mem_append_right _ (ih (registryInsert reg a) h)

theorem mem_renegotiate (me : String) (s : CallState) (offerOk : String → Bool)
    (r : String) (hs : s.localStream ≠ none) (hr : r ∈ s.registry)
    (hok : offerOk r = true) :
    Envelope.mk .OFFER me (some r) ∈ renegotiate me s offerOk true := by
  obtain ⟨tracks, htr⟩ := Option.ne_none_iff_exists'.mp hs
  unfold renegotiate
  rw [htr]
  exact mem_concatMap_of _ s.registry r _ hr (by simp [hok, sendSignal])

/-- A concrete state used by witnesses: in a call with `B`, with a muted
audio stream and a registry entry for `B`. -/
def busyWithB : CallState :=
  { initState with
      isInCall := true
      activeCallData := some ["B"]
      localStream := some mutedAudioStream
      registry := ["B"] }

/-- A concrete state used by witnesses: idle with a pending incoming offer
from `A`. -/
def pendingFromA : CallState :=
  { initState with incomingCall := some ⟨"A", 1, "sdpA"⟩ }

/-! ## C2 — second incoming offer while one is pending -/

/-- C2 counterexample: from the idle initial state, an OFFER from `A`
moves to `IncomingPending`; a second OFFER from the different sender `B`
is not ignored — it replaces the stored pending offer, contradicting the
claim that the stored caller id, timestamp and description stay
unchanged. -/
theorem c2_counterexample :
    (applyOps "me" initState
        [.recvOffer "A" "sdpA" 1 true true,
         .recvOffer "B" "sdpB" 2 true true]).incomingCall
      = some ⟨"B", 2, "sdpB"⟩
    ∧ (applyOps "me" initState
        [.recvOffer "A" "sdpA" 1 true true,
         .recvOffer "B" "sdpB" 2 true true]).incomingCall
      ≠ some ⟨"A", 1, "sdpA"⟩ := by
  decide

/-- C2 (amended): the OFFER handler only consults `isInCall`.  While not in
a call — in particular while an incoming offer is already pending — a new
OFFER always overwrites the stored pending offer with the new sender,
timestamp and description; only while in a call with the sender outside the
participant list is the OFFER dropped with the whole state unchanged. -/
theorem c2_amended_offer_policy (me : String) (s : CallState)
    (senderId sdp : String) (ts : Nat) (renegOk connected : Bool) :
    (s.isInCall = false →
      (recvOffer me s senderId sdp ts renegOk connected).st.incomingCall
        = some ⟨senderId, ts, sdp⟩)
    ∧ (s.isInCall = true → senderId ∉ s.activeCallData.getD [] →
        recvOffer me s senderId sdp ts renegOk connected = ⟨s, [], []⟩) := by
  constructor
  · intro h
    simp [recvOffer, h]
  · intro h1 h2
    simp [recvOffer, h1, h2]

/-- Witness for the amended C2 at concrete states: a pending offer from
`A` is replaced by an OFFER from `B`, and while in a call with `B` an OFFER
from the unrelated `C` leaves everything unchanged. -/
theorem c2_amended_offer_policy_witness :
    (recvOffer "me" pendingFromA "B" "sdpB" 2 true true).st.incomingCall
      = some ⟨"B", 2, "sdpB"⟩
    ∧ recvOffer "me" busyWithB "C" "sdpC" 3 true true = ⟨busyWithB, [], []⟩ :=
  ⟨(c2_amended_offer_policy "me" _ "B" "sdpB" 2 true true).1 rfl,
    (c2_amended_offer_policy "me" _ "C" "sdpC" 3 true true).2 rfl (by decide)⟩

/-! ## C3 — addToCall and offer-creation failure -/

/-- C3 counterexample: in a call with `B`, `addToCall "C"` whose offer
creation fails (`offerOk = false`, so no OFFER envelope reaches the log)
still appends `C` to the participants — the claim that a failed offer
creation leaves `activeParticipants` unextended is false. -/
theorem c3_counterexample :
    (applyOps "me" initState
        [.startGroupCall ["B"] true (fun _ => true) true,
         .addToCall "C" true false true]).activeCallData = some ["B", "C"]
    ∧ Envelope.mk .OFFER "me" (some "C")
        ∉ (runOps "me" initState
            [.startGroupCall ["B"] true (fun _ => true) true,
             .addToCall "C" true false true]).2.1 := by
  decide

/-- C3 (amended): while in an active call with an existing local stream,
`addToCall` appends the recipient to `activeParticipants` unconditionally
once `initiateCallConnection` returns — the connection attempt catches its
own errors, so the list is extended whether or not offer creation
succeeded. -/
theorem c3_amended_append_unconditional (me : String) (s : CallState)
    (ps : List String) (recipientId : String) (mediaOk offerOk connected : Bool)
    (hin : s.isInCall = true) (hdata : s.activeCallData = some ps)
    (hstream : s.localStream ≠ none) :
    (addToCall me s recipientId mediaOk offerOk connected).st.activeCallData
      = some (ps ++ [recipientId]) := by
  obtain ⟨tracks, htr⟩ := Option.ne_none_iff_exists'.mp hstream
  simp [addToCall, hin, hdata, initiateCallConnection, htr]
  cases offerOk <;> simp [hdata]

/-- Witness for the amended C3: with a failing offer creation the
participant list still grows from `["B"]` to `["B", "C"]`. -/
theorem c3_amended_append_unconditional_witness :
    (addToCall "me" busyWithB "C" true false true).st.activeCallData
      = some ["B", "C"] :=
  c3_amended_append_unconditional "me" _ ["B"] "C" true false true rfl rfl (by decide)

/-! ## C4 — missed-call side effects on HANGUP while pending -/

/-- C4: a HANGUP from the pending caller while the phase is
`IncomingPending` (not in a call, no call data) produces exactly one
missed-call notification insert and exactly one missed-call message insert
— for every combination of insert outcomes, so a failed write never blocks
the other write — clears the pending offer and leaves the state idle. -/
theorem c4_missed_call_writes (me senderId : String) (s : CallState)
    (ic : IncomingCallRec) (notifOk msgOk : Bool)
    (hic : s.incomingCall = some ic) (hcaller : ic.callerId = senderId)
    (hin : s.isInCall = false) (hdata : s.activeCallData = none) :
    (recvHangup me s senderId notifOk msgOk).effs
      = [.notifInsert me senderId notifOk, .msgInsert senderId me msgOk]
    ∧ (recvHangup me s senderId notifOk msgOk).st.incomingCall = none
    ∧ (recvHangup me s senderId notifOk msgOk).st.isInCall = false := by
  simp [recvHangup, hic, hcaller, handleRemoteHangup, hdata, hin]

/-- Witness for C4 with a failing notification insert and a succeeding
message insert at a concrete pending state. -/
theorem c4_missed_call_writes_witness :
    (recvHangup "me" { initState with incomingCall := some ⟨"A", 1, "sdp"⟩ }
        "A" false true).effs
      = [.notifInsert "me" "A" false, .msgInsert "A" "me" true]
    ∧ (recvHangup "me" { initState with incomingCall := some ⟨"A", 1, "sdp"⟩ }
        "A" false true).st.incomingCall = none
    ∧ (recvHangup "me" { initState with incomingCall := some ⟨"A", 1, "sdp"⟩ }
        "A" false true).st.isInCall = false :=
  c4_missed_call_writes "me" "A" _ ⟨"A", 1, "sdp"⟩ false true rfl rfl rfl rfl

/-! ## C6 — optimistic outbound call start -/

/-- C6: starting an outbound call from an idle session (no local stream
yet) with a non-empty recipient list and successful media acquisition
enters the call immediately with `activeCallData` equal to the requested
recipients, without waiting for any ANSWER, and this holds for every
transport connectivity and every per-recipient offer outcome — in
particular also when every send is dropped because the transport is not
connected; whenever offer creation succeeds for a recipient and the
transport is connected, an OFFER envelope to that recipient is handed to
the transport. -/
theorem c6_outbound_optimistic (me : String) (s : CallState)
    (recipients : List String) (offerOk : String → Bool) (connected : Bool)
    (hrec : recipients ≠ []) (hstream : s.localStream = none) :
    (startGroupCall me s recipients true offerOk connected).st.isInCall = true
    ∧ (startGroupCall me s recipients true offerOk connected).st.activeCallData
        = some recipients
    ∧ (∀ r ∈ recipients, offerOk r = true → connected = true →
        Envelope.mk .OFFER me (some r)
          ∈ (startGroupCall me s recipients true offerOk connected).envs) := by
  refine ⟨?_, ?_, ?_⟩ <;>
    simp only [startGroupCall, hstream, if_neg hrec, if_pos rfl]
  · rfl
  · rfl
  · intro r hr hok hconn
    subst hconn
    exact mem_callLoop_envs me _ recipients offerOk r hr hok

/-- Witness for C6 with a disconnected transport: the call to `B` is still
entered optimistically (phase active, participants `["B"]`). -/
theorem c6_outbound_optimistic_witness :
    (startGroupCall "A" initState ["B"] true (fun _ => true) false).st.isInCall = true
    ∧ (startGroupCall "A" initState ["B"] true (fun _ => true) false).st.activeCallData
        = some ["B"] :=
  ⟨(c6_outbound_optimistic "A" initState ["B"] (fun _ => true) false
      (by decide) rfl).1,
    (c6_outbound_optimistic "A" initState ["B"] (fun _ => true) false
      (by decide) rfl).2.1⟩

/-! ## C7 — rejecting an incoming call -/

/-- C7: rejecting while an offer is pending (and not in a call) hands a
HANGUP envelope addressed to the pending caller to the connected transport,
clears the stored offer, returns to idle, and acquires no media on the way:
the local stream and the registry are exactly those of the prior state and
no capture request is issued. -/
theorem c7_reject_no_media (me : String) (s : CallState) (ic : IncomingCallRec)
    (hic : s.incomingCall = some ic) (hin : s.isInCall = false) :
    (rejectIncomingCall me s true).st.incomingCall = none
    ∧ (rejectIncomingCall me s true).st.isInCall = false
    ∧ (rejectIncomingCall me s true).st.localStream = s.localStream
    ∧ (rejectIncomingCall me s true).st.registry = s.registry
    ∧ (rejectIncomingCall me s true).effs = []
    ∧ (rejectIncomingCall me s true).envs = [⟨.HANGUP, me, some ic.callerId⟩] := by
  simp [rejectIncomingCall, hic, hin, sendSignal]

/-- Witness for C7 at the concrete pending state: HANGUP goes to `A`,
no stream is created, no registry entry appears, no capture request. -/
theorem c7_reject_no_media_witness :
    (rejectIncomingCall "me" pendingFromA true).st.incomingCall = none
    ∧ (rejectIncomingCall "me" pendingFromA true).st.isInCall = false
    ∧ (rejectIncomingCall "me" pendingFromA true).st.localStream
        = pendingFromA.localStream
    ∧ (rejectIncomingCall "me" pendingFromA true).st.registry = pendingFromA.registry
    ∧ (rejectIncomingCall "me" pendingFromA true).effs = []
    ∧ (rejectIncomingCall "me" pendingFromA true).envs
        = [⟨.HANGUP, "me", some "A"⟩] :=
  c7_reject_no_media "me" pendingFromA ⟨"A", 1, "sdpA"⟩ rfl rfl

/-! ## C8 — ANSWER / CANDIDATE from a sender without a registry entry -/

/-- C8: an inbound ANSWER or CANDIDATE whose sender has no registry entry
is a total no-op: the handlers are total functions (they never raise), the
state — in particular `activeCallData` — is untouched, and no envelope or
external effect is produced. -/
theorem c8_unknown_sender_noop (me senderId : String) (s : CallState)
    (applyOk : Bool) (h : senderId ∉ s.registry) :
    recvAnswer s senderId applyOk = ⟨s, [], []⟩
    ∧ recvCandidate s senderId = ⟨s, [], []⟩ := by
  constructor
  · simp [recvAnswer, h]
  · rfl

/-- Witness for C8: in a call with `B`, an ANSWER and a CANDIDATE from the
unknown sender `C` change nothing. -/
theorem c8_unknown_sender_noop_witness :
    recvAnswer busyWithB "C" true = ⟨busyWithB, [], []⟩
    ∧ recvCandidate busyWithB "C" = ⟨busyWithB, [], []⟩ :=
  c8_unknown_sender_noop "me" "C" busyWithB true (by decide)

/-! ## C9 — toggleMic -/

/-- The state after `toggleMic` flips the audio tracks: every audio track
gets the new mic status as its `enabled` flag. -/
def micFlip (s : CallState) (tracks : List Track) : CallState :=
  { s with
      localStream := some (tracks.map (fun t =>
        if t.isAudio then { t with enabled := !s.isMicOn } else t))
      isMicOn := !s.isMicOn }

/-- C9: with a local stream holding at least one audio track, `toggleMic`
flips the `enabled` flag of every audio track to the new mic status; when
the flip turns the mic on it runs a renegotiation round in which every
registry entry whose offer creation succeeds receives a fresh OFFER over
the connected transport — independently of the offer outcomes at the other
peers, so one peer's failure never suppresses another peer's offer — and
when the flip turns the mic off no envelope is sent at all. -/
theorem c9_toggle_mic (me : String) (s : CallState) (tracks : List Track)
    (offerOk : String → Bool) (hstream : s.localStream = some tracks)
    (haudio : tracks.any (fun t => t.isAudio) = true) :
    (toggleMic me s offerOk true).st.isMicOn = !s.isMicOn
    ∧ (toggleMic me s offerOk true).st.localStream
        = some (tracks.map (fun t =>
            if t.isAudio then { t with enabled := !s.isMicOn } else t))
    ∧ (s.isMicOn = false → ∀ r ∈ s.registry, offerOk r = true →
        Envelope.mk .OFFER me (some r) ∈ (toggleMic me s offerOk true).envs)
    ∧ (s.isMicOn = true → (toggleMic me s offerOk true).envs = []) := by
  cases hmic : s.isMicOn with
  | false =>
    have hst : (toggleMic me s offerOk true).st = micFlip s tracks := by
      simp [toggleMic, hstream, haudio, hmic, micFlip]
    have henv : (toggleMic me s offerOk true).envs
        = renegotiate me (micFlip s tracks) offerOk true := by
      simp [toggleMic, hstream, haudio, hmic, micFlip]
    refine ⟨?_, ?_, ?_, ?_⟩
    · rw [hst]; simp [micFlip, hmic]
    · rw [hst]; simp [micFlip, hmic]
    · intro _ r hr hok
      rw [henv]
      exact mem_renegotiate me (micFlip s tracks) offerOk r
        (by simp [micFlip]) (by simpa [micFlip] using hr) hok
    · intro h
      simp at h
  | true =>
    have hst : (toggleMic me s offerOk true).st = micFlip s tracks := by
      simp [toggleMic, hstream, haudio, hmic, micFlip]
    have henv : (toggleMic me s offerOk true).envs = [] := by
      simp [toggleMic, hstream, haudio, hmic]
    refine ⟨?_, ?_, ?_, ?_⟩
    · rw [hst]; simp [micFlip, hmic]
    · rw [hst]; simp [micFlip, hmic]
    · intro h
      simp at h
    · intro _
      exact henv

/-- Witness for C9: in the call with `B` from the muted audio stream,
toggling the mic on enables the audio track and sends a fresh OFFER
to `B`. -/
theorem c9_toggle_mic_witness :
    (toggleMic "me" busyWithB (fun _ => true) true).st.isMicOn = true
    ∧ (toggleMic "me" busyWithB (fun _ => true) true).st.localStream
        = some [⟨.audio, true⟩]
    ∧ Envelope.mk .OFFER "me" (some "B")
        ∈ (toggleMic "me" busyWithB (fun _ => true) true).envs := by
  have h := c9_toggle_mic "me" busyWithB mutedAudioStream (fun _ => true) rfl
    (by decide)
  exact ⟨h.1, h.2.1, h.2.2.1 rfl "B" (by decide) rfl⟩

/-! ## C10 — toggleScreenShare guard -/

/-- C10: with an empty registry or no local stream, `toggleScreenShare`
(and likewise `stopScreenSharing`) is a total no-op: the state is returned
unchanged, no envelope is sent, and no capture request — in particular no
display-capture request — is issued. -/
theorem c10_screen_share_guard (me : String) (s : CallState) (dispOk : Bool)
    (offerOk : String → Bool) (connected : Bool)
    (h : s.registry = [] ∨ s.localStream = none) :
    toggleScreenShare me s dispOk offerOk connected = ⟨s, [], []⟩
    ∧ stopScreenSharing me s offerOk connected = ⟨s, [], []⟩ := by
  constructor
  · unfold toggleScreenShare
    rw [if_pos h]
  · unfold stopScreenSharing
    rw [if_pos h]

/-- Witness for C10: idle state with no stream and empty registry — the
toggle does nothing at all. -/
theorem c10_screen_share_guard_witness :
    toggleScreenShare "me" initState true (fun _ => true) true
      = ⟨initState, [], []⟩
    ∧ stopScreenSharing "me" initState (fun _ => true) true
      = ⟨initState, [], []⟩ :=
  c10_screen_share_guard "me" initState true (fun _ => true) true (Or.inl rfl)

/-! ## C5 — mutual exclusion of camera and screen-share video tracks -/

/-- C5 counterexample trace: an OFFER from `A` is pending; accepting it
acquires media and creates `A`'s registry entry but the negotiation await
rejects, so the pending offer survives and the session stays out of the
call; screen sharing is then started (registry non-empty, stream exists);
`A`'s HANGUP empties the registry while leaving the screen-share flag set;
now toggling the camera on calls `stopScreenSharing`, whose empty-registry
guard makes it a no-op, and then adds the camera track next to the
surviving screen track — two video tracks on the local stream at once. -/
theorem c5_counterexample :
    videoCount (streamTracks (applyOps "me" initState
      [.recvOffer "A" "sdpA" 1 true true,
       .acceptIncomingCall true false true,
       .toggleScreenShare true (fun _ => true) true,
       .recvHangup "A" true true,
       .toggleCamera true (fun _ => true) true])) = 2 := by
  decide

theorem countP_filter_all (p q : α → Bool) (l : List α)
    (hpq : ∀ t, p t = true → q t = true) :
    (l.filter q).countP p = l.countP p := by
  induction l with
  | nil => rfl
  | cons a l ih =>
    by_cases hq : q a = true
    · simp [List.filter_cons, hq, List.countP_cons, ih]
    · have hp : p a = false := by
        cases hpa : p a
        · rfl
        · exact absurd (hpq a hpa) hq
      simp [List.filter_cons, hq, List.countP_cons, ih, hp]

theorem countP_filter_none (p q : α → Bool) (l : List α)
    (hpq : ∀ t, p t = true → q t = false) :
    (l.filter q).countP p = 0 := by
  induction l with
  | nil => rfl
  | cons a l ih =>
    by_cases hq : q a = true
    · have hp : p a = false := by
        cases hpa : p a
        · rfl
        · rw [hpq a hpa] at hq
          simp at hq
      simp [List.filter_cons, hq, List.countP_cons, ih, hp]
    · simp [List.filter_cons, hq, ih]

theorem countP_micMap (p : Track → Bool) (b : Bool) (l : List Track)
    (hp : ∀ t, p { t with enabled := b } = p t) :
    (l.map (fun t =>
      if t.isAudio then { t with enabled := b } else t)).countP p
      = l.countP p := by
  induction l with
  | nil => rfl
  | cons a l ih =>
    by_cases ha : a.isAudio = true <;>
      simp [List.countP_cons, ih, ha, hp]

theorem isCam_setEnabled (t : Track) (b : Bool) :
    Track.isCam { t with enabled := b } = t.isCam := by
  cases t with
  | mk k e => cases k <;> rfl

theorem isScreen_setEnabled (t : Track) (b : Bool) :
    Track.isScreen { t with enabled := b } = t.isScreen := by
  cases t with
  | mk k e => cases k <;> rfl

theorem isVideo_setEnabled (t : Track) (b : Bool) :
    Track.isVideo { t with enabled := b } = t.isVideo := by
  cases t with
  | mk k e => cases k <;> rfl

theorem isCam_not_isScreen (t : Track) (h : t.isCam = true) :
    t.isScreen = false := by
  cases t with
  | mk k e => cases k <;> simp_all [Track.isCam, Track.isScreen]

theorem isScreen_not_isCam (t : Track) (h : t.isScreen = true) :
    t.isCam = false := by
  cases t with
  | mk k e => cases k <;> simp_all [Track.isCam, Track.isScreen]

theorem countP_or_disjoint (p q : α → Bool) (l : List α)
    (h : ∀ a, ¬(p a = true ∧ q a = true)) :
    l.countP (fun a => p a || q a) = l.countP p + l.countP q := by
  induction l with
  | nil => rfl
  | cons a l ih =>
    simp only [List.countP_cons, ih]
    by_cases hp : p a = true
    · have hq : q a = false := by
        cases hqa : q a
        · rfl
        · exact absurd ⟨hp, hqa⟩ (h a)
      simp [hp, hq]
      omega
    · have hp2 : p a = false := by
        cases hpa : p a
        · rfl
        · exact absurd hpa hp
      by_cases hq : q a = true <;> simp [hp2, hq] <;> omega

theorem videoCount_eq (l : List Track) :
    videoCount l = camCount l + screenCount l := by
  unfold videoCount camCount screenCount
  have hfun : (fun t : Track => t.isVideo) = fun t : Track => t.isCam || t.isScreen := by
    funext t
    rfl
  rw [hfun]
  refine countP_or_disjoint _ _ l (fun t hcontra => ?_)
  have := isCam_not_isScreen t hcontra.1
  rw [this] at hcontra
  simp at hcontra

theorem isCam_isVideo (t : Track) (h : t.isCam = true) : t.isVideo = true := by
  simp [Track.isVideo, h]

theorem isScreen_isVideo (t : Track) (h : t.isScreen = true) :
    t.isVideo = true := by
  simp [Track.isVideo, h]

theorem registryInsert_ne_nil (reg : List String) (r : String) :
    registryInsert reg r ≠ [] := by
  unfold registryInsert
  split
  · next hmem => exact List.ne_nil_of_mem hmem
  · simp

theorem callLoop_reg_ne_nil (me : String) (reg recipients : List String)
    (offerOk : String → Bool) (connected : Bool) (h : reg ≠ []) :
    (callLoop me reg recipients offerOk connected).1 ≠ [] := by
  obtain ⟨a, ha⟩ := List.exists_mem_of_ne_nil reg h
  exact List.ne_nil_of_mem (callLoop_reg_mono me reg recipients offerOk connected a ha)

theorem stopScreenSharing_st (me : String) (s : CallState)
    (offerOk : String → Bool) (connected : Bool)
    (hreg : s.registry ≠ []) (hs : s.localStream ≠ none) :
    (stopScreenSharing me s offerOk connected).st
      = { s with
            localStream := some ((streamTracks s).filter (fun t => !t.isScreen))
            isScreenSharing := false
            isCameraOn := false } := by
  unfold stopScreenSharing
  rw [if_neg (by simp [hreg, hs])]

/-- The media/registry invariant that carries the mutual-exclusion claim:
at most one video track, track counts agreeing with the flags, a non-empty
registry while sharing, participants registered, and a stream while in a
call. -/
structure MediaInv (s : CallState) : Prop where
  vc : videoCount (streamTracks s) ≤ 1
  noScreen : s.isScreenSharing = false → screenCount (streamTracks s) = 0
  noCam : s.isCameraOn = false → camCount (streamTracks s) = 0
  regNE : s.isScreenSharing = true → s.registry ≠ []
  partReg : ∀ ps, s.activeCallData = some ps → ∀ p ∈ ps, p ∈ s.registry
  regEmpty : s.activeCallData = none → s.registry = []
  streamSome : s.isInCall = true → s.localStream ≠ none
  notBoth : s.isCameraOn = true → s.isScreenSharing = false

theorem mediaInv_init : MediaInv initState := by
  refine ⟨?_, ?_, ?_, ?_, ?_, ?_, ?_, ?_⟩ <;>
    simp [initState, streamTracks, videoCount, camCount, screenCount]

theorem mediaInv_cleanupCall (s : CallState) : MediaInv (cleanupCall s) := by
  refine ⟨?_, ?_, ?_, ?_, ?_, ?_, ?_, ?_⟩ <;>
    simp [cleanupCall, streamTracks, videoCount, camCount, screenCount]

theorem mediaInv_handleRemoteHangup (s : CallState) (x : String)
    (h : MediaInv s) : MediaInv (handleRemoteHangup s x) := by
  cases hd : s.activeCallData with
  | none =>
    have hst : handleRemoteHangup s x
        = { s with registry := s.registry.filter (fun r => r ≠ x) } := by
      unfold handleRemoteHangup
      simp only [hd]
    rw [hst]
    refine ⟨h.vc, h.noScreen, h.noCam, ?_, ?_, ?_, h.streamSome, h.notBoth⟩
    · intro hsh
      exact absurd (h.regEmpty hd) (h.regNE hsh)
    · intro ps hps p hp
      have h2 : s.activeCallData = some ps := hps
      rw [hd] at h2
      exact Option.noConfusion h2
    · intro _
      rw [h.regEmpty hd]
      rfl
  | some ps =>
    have hred : handleRemoteHangup s x
        = (if ps.filter (fun i => i ≠ x) = [] then
            cleanupCall
              { s with registry := s.registry.filter (fun r => r ≠ x) }
          else
            { s with
                registry := s.registry.filter (fun r => r ≠ x)
                activeCallData := some (ps.filter (fun i => i ≠ x)) }) := by
      unfold handleRemoteHangup
      simp only [hd]
    rw [hred]
    by_cases hni : ps.filter (fun i => i ≠ x) = []
    · rw [if_pos hni]
      exact mediaInv_cleanupCall _
    · rw [if_neg hni]
      refine ⟨h.vc, h.noScreen, h.noCam, ?_, ?_, ?_, h.streamSome, h.notBoth⟩
      · intro _
        obtain ⟨q, hq⟩ := List.exists_mem_of_ne_nil _ hni
        have hqf := List.mem_filter.mp hq
        refine List.ne_nil_of_mem (a := q) (List.mem_filter.mpr ⟨?_, hqf.2⟩)
        exact h.partReg ps hd q hqf.1
      · intro ps2 hps2 p hp
        have h2 : some (ps.filter (fun i => i ≠ x)) = some ps2 := hps2
        injection h2 with h3
        subst h3
        have hpf := List.mem_filter.mp hp
        exact List.mem_filter.mpr ⟨h.partReg ps hd p hpf.1, hpf.2⟩
      · intro hnone
        have h2 : some (ps.filter (fun i => i ≠ x)) = (none : Option (List String)) :=
          hnone
        exact Option.noConfusion h2

theorem mediaInv_startGroupCall (me : String) (s : CallState)
    (recipients : List String) (mediaOk : Bool) (offerOk : String → Bool)
    (connected : Bool) (h : MediaInv s) :
    MediaInv (startGroupCall me s recipients mediaOk offerOk connected).st := by
  by_cases hrec : recipients = []
  · have hst : (startGroupCall me s recipients mediaOk offerOk connected).st
        = s := by
      simp [startGroupCall, hrec]
    rw [hst]
    exact h
  · cases hs : s.localStream with
    | some tracks =>
      have hst : (startGroupCall me s recipients mediaOk offerOk connected).st
          = { s with
                isInCall := true
                activeCallData := some recipients
                registry := (callLoop me s.registry recipients offerOk connected).1 } := by
        simp [startGroupCall, hrec, hs]
      rw [hst]
      refine ⟨h.vc, h.noScreen, h.noCam, ?_, ?_, ?_, ?_, h.notBoth⟩
      · intro hsh
        exact callLoop_reg_ne_nil me _ recipients offerOk connected (h.regNE hsh)
      · intro ps hps p hp
        have h2 : some recipients = some ps := hps
        injection h2 with h3
        subst h3
        exact callLoop_reg_mem me s.registry recipients offerOk connected p hp
      · intro hnone
        exact Option.noConfusion
          (show some recipients = (none : Option (List String)) from hnone)
      · intro _
        simp [hs]
    | none =>
      cases mediaOk with
      | false =>
        have hst : (startGroupCall me s recipients false offerOk connected).st
            = s := by
          simp [startGroupCall, hrec, hs]
        rw [hst]
        exact h
      | true =>
        have hst : (startGroupCall me s recipients true offerOk connected).st
            = { s with
                  localStream := some mutedAudioStream
                  isMicOn := false
                  isCameraOn := false
                  isInCall := true
                  activeCallData := some recipients
                  registry := (callLoop me s.registry recipients offerOk connected).1 } := by
          simp [startGroupCall, hrec, hs]
        rw [hst]
        refine ⟨?_, ?_, ?_, ?_, ?_, ?_, ?_, ?_⟩
        · exact (by decide : videoCount mutedAudioStream ≤ 1)
        · intro _
          exact (by decide : screenCount mutedAudioStream = 0)
        · intro _
          exact (by decide : camCount mutedAudioStream = 0)
        · intro hsh
          exact callLoop_reg_ne_nil me _ recipients offerOk connected (h.regNE hsh)
        · intro ps hps p hp
          have h2 : some recipients = some ps := hps
          injection h2 with h3
          subst h3
          exact callLoop_reg_mem me s.registry recipients offerOk connected p hp
        · intro hnone
          exact Option.noConfusion
            (show some recipients = (none : Option (List String)) from hnone)
        · intro _
          simp
        · intro hcam
          simp at hcam

theorem mediaInv_addToCall (me : String) (s : CallState) (recipientId : String)
    (mediaOk offerOk connected : Bool) (h : MediaInv s) :
    MediaInv (addToCall me s recipientId mediaOk offerOk connected).st := by
  by_cases hcond : s.isInCall = true ∧ s.activeCallData ≠ none
  · obtain ⟨hin, hdata⟩ := hcond
    obtain ⟨ps, hps⟩ := Option.ne_none_iff_exists'.mp hdata
    obtain ⟨tracks, htr⟩ := Option.ne_none_iff_exists'.mp (h.streamSome hin)
    have hst : (addToCall me s recipientId mediaOk offerOk connected).st
        = { s with
              registry := registryInsert s.registry recipientId
              activeCallData := some (ps ++ [recipientId]) } := by
      cases offerOk <;>
        simp [addToCall, initiateCallConnection, htr, hps, hin, hdata]
    rw [hst]
    refine ⟨h.vc, h.noScreen, h.noCam, ?_, ?_, ?_, ?_, h.notBoth⟩
    · intro _
      exact registryInsert_ne_nil _ _
    · intro ps2 hps2 p hp
      have h2 : some (ps ++ [recipientId]) = some ps2 := hps2
      injection h2 with h3
      subst h3
      rcases List.mem_append.mp hp with hp2 | hp2
      · exact mem_registryInsert_of _ _ _ (h.partReg ps hps p hp2)
      · have hp3 : p = recipientId := by simpa using hp2
        subst hp3
        exact mem_registryInsert_self _ _
    · intro hnone
      exact Option.noConfusion
        (show some (ps ++ [recipientId]) = (none : Option (List String)) from hnone)
    · intro _
      simp [htr]
  · have hst : (addToCall me s recipientId mediaOk offerOk connected).st = s := by
      simp only [addToCall, if_neg hcond]
    rw [hst]
    exact h

theorem mediaInv_acceptIncomingCall (me : String) (s : CallState)
    (mediaOk connected : Bool) (h : MediaInv s) :
    MediaInv (acceptIncomingCall me s mediaOk true connected).st := by
  cases hic : s.incomingCall with
  | none =>
    have hst : (acceptIncomingCall me s mediaOk true connected).st = s := by
      simp [acceptIncomingCall, hic]
    rw [hst]
    exact h
  | some ic =>
    cases mediaOk with
    | false =>
      have hst : (acceptIncomingCall me s false true connected).st = s := by
        simp [acceptIncomingCall, hic]
      rw [hst]
      exact h
    | true =>
      have hst : (acceptIncomingCall me s true true connected).st
          = { s with
                incomingCall := none
                isInCall := true
                activeCallData := some [ic.callerId]
                localStream := some mutedAudioStream
                registry := registryInsert s.registry ic.callerId
                isMicOn := false
                isCameraOn := false } := by
        simp [acceptIncomingCall, hic]
      rw [hst]
      refine ⟨?_, ?_, ?_, ?_, ?_, ?_, ?_, ?_⟩
      · exact (by decide : videoCount mutedAudioStream ≤ 1)
      · intro _
        exact (by decide : screenCount mutedAudioStream = 0)
      · intro _
        exact (by decide : camCount mutedAudioStream = 0)
      · intro _
        exact registryInsert_ne_nil _ _
      · intro ps hps p hp
        have h2 : some [ic.callerId] = some ps := hps
        injection h2 with h3
        subst h3
        have hp2 : p = ic.callerId := by simpa using hp
        subst hp2
        exact mem_registryInsert_self _ _
      · intro hnone
        exact Option.noConfusion
          (show some [ic.callerId] = (none : Option (List String)) from hnone)
      · intro _
        simp
      · intro hcam
        simp at hcam

theorem mediaInv_rejectIncomingCall (me : String) (s : CallState)
    (connected : Bool) (h : MediaInv s) :
    MediaInv (rejectIncomingCall me s connected).st := by
  cases hic : s.incomingCall with
  | none =>
    have hst : (rejectIncomingCall me s connected).st = s := by
      simp [rejectIncomingCall, hic]
    rw [hst]
    exact h
  | some ic =>
    have hst : (rejectIncomingCall me s connected).st
        = { s with incomingCall := none } := by
      simp [rejectIncomingCall, hic]
    rw [hst]
    exact ⟨h.vc, h.noScreen, h.noCam, h.regNE, h.partReg, h.regEmpty,
      h.streamSome, h.notBoth⟩

theorem mediaInv_endCall (me : String) (s : CallState) (connected : Bool) :
    MediaInv (endCall me s connected).st :=
  mediaInv_cleanupCall s

theorem mediaInv_recvOffer (me : String) (s : CallState) (senderId sdp : String)
    (ts : Nat) (renegOk connected : Bool) (h : MediaInv s) :
    MediaInv (recvOffer me s senderId sdp ts renegOk connected).st := by
  have hst : (recvOffer me s senderId sdp ts renegOk connected).st = s
      ∨ (recvOffer me s senderId sdp ts renegOk connected).st
        = { s with incomingCall := some ⟨senderId, ts, sdp⟩ } := by
    by_cases h1 : s.isInCall = true ∧ senderId ∉ s.activeCallData.getD []
    · left
      simp [recvOffer, h1]
    · by_cases h2 : s.isInCall = true ∧ senderId ∈ s.activeCallData.getD []
      · by_cases h3 : senderId ∈ s.registry ∧ renegOk = true
        · left
          simp [recvOffer, h1, h2, h3]
        · left
          simp [recvOffer, h1, h2, h3]
      · right
        simp [recvOffer, h1, h2]
  rcases hst with hst | hst <;> rw [hst]
  · exact h
  · exact ⟨h.vc, h.noScreen, h.noCam, h.regNE, h.partReg, h.regEmpty,
      h.streamSome, h.notBoth⟩

theorem mediaInv_recvAnswer (s : CallState) (senderId : String) (applyOk : Bool)
    (h : MediaInv s) : MediaInv (recvAnswer s senderId applyOk).st := by
  by_cases hc : senderId ∈ s.registry ∧ applyOk = true
  · cases hd : s.activeCallData with
    | none =>
      have hst : (recvAnswer s senderId applyOk).st
          = { s with activeCallData := none } := by
        simp [recvAnswer, hc, hd]
      rw [hst]
      refine ⟨h.vc, h.noScreen, h.noCam, h.regNE, ?_, ?_, h.streamSome, h.notBoth⟩
      · intro ps hps p hp
        exact Option.noConfusion
          (show (none : Option (List String)) = some ps from hps)
      · intro _
        exact h.regEmpty hd
    | some ps =>
      by_cases hm : senderId ∈ ps
      · have hst : (recvAnswer s senderId applyOk).st
            = { s with activeCallData := some ps } := by
          simp [recvAnswer, hc, hd, hm]
        rw [hst]
        refine ⟨h.vc, h.noScreen, h.noCam, h.regNE, ?_, ?_, h.streamSome, h.notBoth⟩
        · intro ps2 hps2 p hp
          have h2 : some ps = some ps2 := hps2
          injection h2 with h3
          subst h3
          exact h.partReg ps hd p hp
        · intro hnone
          exact Option.noConfusion
            (show some ps = (none : Option (List String)) from hnone)
      · have hst : (recvAnswer s senderId applyOk).st
            = { s with activeCallData := some (ps ++ [senderId]) } := by
          simp [recvAnswer, hc, hd, hm]
        rw [hst]
        refine ⟨h.vc, h.noScreen, h.noCam, h.regNE, ?_, ?_, h.streamSome, h.notBoth⟩
        · intro ps2 hps2 p hp
          have h2 : some (ps ++ [senderId]) = some ps2 := hps2
          injection h2 with h3
          subst h3
          rcases List.mem_append.mp hp with hp2 | hp2
          · exact h.partReg ps hd p hp2
          · have hp3 : p = senderId := by simpa using hp2
            subst hp3
            exact hc.1
        · intro hnone
          exact Option.noConfusion
            (show some (ps ++ [senderId]) = (none : Option (List String)) from hnone)
  · have hst : (recvAnswer s senderId applyOk).st = s := by
      simp [recvAnswer, hc]
    rw [hst]
    exact h

theorem mediaInv_recvCandidate (s : CallState) (senderId : String)
    (h : MediaInv s) : MediaInv (recvCandidate s senderId).st := h

theorem mediaInv_recvHangup (me : String) (s : CallState) (senderId : String)
    (notifOk msgOk : Bool) (h : MediaInv s) :
    MediaInv (recvHangup me s senderId notifOk msgOk).st := by
  cases hic : s.incomingCall with
  | none =>
    have hst : (recvHangup me s senderId notifOk msgOk).st
        = handleRemoteHangup s senderId := by
      simp [recvHangup, hic]
    rw [hst]
    exact mediaInv_handleRemoteHangup s senderId h
  | some ic =>
    by_cases hcal : ic.callerId = senderId
    · have hst : (recvHangup me s senderId notifOk msgOk).st
          = handleRemoteHangup { s with incomingCall := none } senderId := by
        simp [recvHangup, hic, hcal]
      rw [hst]
      exact mediaInv_handleRemoteHangup _ senderId
        ⟨h.vc, h.noScreen, h.noCam, h.regNE, h.partReg, h.regEmpty,
          h.streamSome, h.notBoth⟩
    · have hst : (recvHangup me s senderId notifOk msgOk).st
          = handleRemoteHangup s senderId := by
        simp [recvHangup, hic, hcal]
      rw [hst]
      exact mediaInv_handleRemoteHangup s senderId h

theorem videoCount_append (l1 l2 : List Track) :
    videoCount (l1 ++ l2) = videoCount l1 + videoCount l2 := by
  simp [videoCount, List.countP_append]

theorem camCount_append (l1 l2 : List Track) :
    camCount (l1 ++ l2) = camCount l1 + camCount l2 := by
  simp [camCount, List.countP_append]

theorem screenCount_append (l1 l2 : List Track) :
    screenCount (l1 ++ l2) = screenCount l1 + screenCount l2 := by
  simp [screenCount, List.countP_append]

theorem mediaInv_toggleMic (me : String) (s : CallState)
    (offerOk : String → Bool) (connected : Bool) (h : MediaInv s) :
    MediaInv (toggleMic me s offerOk connected).st := by
  cases hs : s.localStream with
  | none =>
    have hst : (toggleMic me s offerOk connected).st = s := by
      simp [toggleMic, hs]
    rw [hst]
    exact h
  | some tracks =>
    by_cases ha : tracks.any (fun t => t.isAudio) = true
    · have hst : (toggleMic me s offerOk connected).st = micFlip s tracks := by
        by_cases hm : (!s.isMicOn) = true <;>
          simp [toggleMic, hs, ha, hm, micFlip]
      rw [hst]
      have hvid : videoCount (streamTracks (micFlip s tracks))
          = videoCount (streamTracks s) := by
        simp only [micFlip, streamTracks, hs, Option.getD_some]
        exact countP_micMap _ _ tracks (fun t => isVideo_setEnabled t _)
      have hscr : screenCount (streamTracks (micFlip s tracks))
          = screenCount (streamTracks s) := by
        simp only [micFlip, streamTracks, hs, Option.getD_some]
        exact countP_micMap _ _ tracks (fun t => isScreen_setEnabled t _)
      have hcam : camCount (streamTracks (micFlip s tracks))
          = camCount (streamTracks s) := by
        simp only [micFlip, streamTracks, hs, Option.getD_some]
        exact countP_micMap _ _ tracks (fun t => isCam_setEnabled t _)
      refine ⟨?_, ?_, ?_, h.regNE, h.partReg, h.regEmpty, ?_, h.notBoth⟩
      · rw [hvid]
        exact h.vc
      · intro hsh
        rw [hscr]
        exact h.noScreen hsh
      · intro hcm
        rw [hcam]
        exact h.noCam hcm
      · intro _
        simp [micFlip]
    · have hst : (toggleMic me s offerOk connected).st = s := by
        simp [toggleMic, hs, ha]
      rw [hst]
      exact h

theorem mediaInv_toggleCamera (me : String) (s : CallState) (camOk : Bool)
    (offerOk : String → Bool) (connected : Bool) (h : MediaInv s) :
    MediaInv (toggleCamera me s camOk offerOk connected).st := by
  cases hs : s.localStream with
  | none =>
    have hst : (toggleCamera me s camOk offerOk connected).st = s := by
      simp [toggleCamera, hs]
    rw [hst]
    exact h
  | some tracks =>
    have htr : streamTracks s = tracks := by simp [streamTracks, hs]
    by_cases hc : s.isCameraOn = true
    · have hst : (toggleCamera me s camOk offerOk connected).st
          = { s with
                localStream := some (tracks.filter (fun t => !t.isCam))
                isCameraOn := false } := by
        simp [toggleCamera, hs, hc]
      rw [hst]
      have hcam0 : camCount (tracks.filter (fun t => !t.isCam)) = 0 :=
        countP_filter_none _ _ tracks (fun t ht => by simp [ht])
      have hscr : screenCount (tracks.filter (fun t => !t.isCam))
          = screenCount tracks :=
        countP_filter_all _ _ tracks (fun t ht => by simp [isScreen_not_isCam t ht])
      have hv1 := videoCount_eq (tracks.filter (fun t => !t.isCam))
      have hv2 := videoCount_eq tracks
      have hv3 : videoCount tracks ≤ 1 := htr ▸ h.vc
      refine ⟨?_, ?_, ?_, h.regNE, h.partReg, h.regEmpty, ?_, ?_⟩
      · show videoCount (tracks.filter (fun t => !t.isCam)) ≤ 1
        omega
      · intro hsh
        show screenCount (tracks.filter (fun t => !t.isCam)) = 0
        rw [hscr, ← htr]
        exact h.noScreen hsh
      · intro _
        exact hcam0
      · intro _
        simp
      · intro hcm
        simp at hcm
    · have hcf : s.isCameraOn = false := by simpa using hc
      by_cases hk : camOk = true
      · by_cases hsh : s.isScreenSharing = true
        · have hreg : s.registry ≠ [] := h.regNE hsh
          have hsome : s.localStream ≠ none := by simp [hs]
          have hstop := stopScreenSharing_st me s offerOk connected hreg hsome
          have hst : (toggleCamera me s camOk offerOk connected).st
              = { s with
                    localStream := some ((tracks.filter (fun t => !t.isScreen))
                      ++ [⟨.cameraVideo, true⟩])
                    isScreenSharing := false
                    isCameraOn := true } := by
            simp [toggleCamera, hs, hc, hk, hsh, hstop, streamTracks, htr]
          rw [hst]
          have hcam0 : camCount tracks = 0 := htr ▸ h.noCam hcf
          have hA : camCount (tracks.filter (fun t => !t.isScreen))
              = camCount tracks :=
            countP_filter_all _ _ tracks (fun t ht => by simp [isCam_not_isScreen t ht])
          have hB : screenCount (tracks.filter (fun t => !t.isScreen)) = 0 :=
            countP_filter_none _ _ tracks (fun t ht => by simp [ht])
          have hV := videoCount_eq (tracks.filter (fun t => !t.isScreen))
          have hq1 : videoCount [(⟨.cameraVideo, true⟩ : Track)] = 1 := by decide
          have hq2 : screenCount [(⟨.cameraVideo, true⟩ : Track)] = 0 := by decide
          refine ⟨?_, ?_, ?_, ?_, h.partReg, h.regEmpty, ?_, ?_⟩
          · show videoCount ((tracks.filter (fun t => !t.isScreen))
                ++ [⟨.cameraVideo, true⟩]) ≤ 1
            rw [videoCount_append]
            omega
          · intro _
            show screenCount ((tracks.filter (fun t => !t.isScreen))
                ++ [⟨.cameraVideo, true⟩]) = 0
            rw [screenCount_append]
            omega
          · intro hcm
            simp at hcm
          · intro hsh2
            simp at hsh2
          · intro _
            simp
          · intro _
            rfl
        · have hshf : s.isScreenSharing = false := by simpa using hsh
          have hst : (toggleCamera me s camOk offerOk connected).st
              = { s with
                    localStream := some (tracks ++ [⟨.cameraVideo, true⟩])
                    isCameraOn := true } := by
            simp [toggleCamera, hs, hc, hk, hsh, streamTracks]
          rw [hst]
          have hcam0 : camCount tracks = 0 := htr ▸ h.noCam hcf
          have hscr0 : screenCount tracks = 0 := htr ▸ h.noScreen hshf
          have hv2 := videoCount_eq tracks
          have hq1 : videoCount [(⟨.cameraVideo, true⟩ : Track)] = 1 := by decide
          have hq2 : screenCount [(⟨.cameraVideo, true⟩ : Track)] = 0 := by decide
          refine ⟨?_, ?_, ?_, h.regNE, h.partReg, h.regEmpty, ?_, ?_⟩
          · show videoCount (tracks ++ [⟨.cameraVideo, true⟩]) ≤ 1
            rw [videoCount_append]
            omega
          · intro _
            show screenCount (tracks ++ [⟨.cameraVideo, true⟩]) = 0
            rw [screenCount_append]
            omega
          · intro hcm
            simp at hcm
          · intro _
            simp
          · intro _
            exact hshf
      · have hst : (toggleCamera me s camOk offerOk connected).st = s := by
          simp [toggleCamera, hs, hc, hk]
        rw [hst]
        exact h

theorem mediaInv_toggleScreenShare (me : String) (s : CallState) (dispOk : Bool)
    (offerOk : String → Bool) (connected : Bool) (h : MediaInv s) :
    MediaInv (toggleScreenShare me s dispOk offerOk connected).st := by
  by_cases hg : s.registry = [] ∨ s.localStream = none
  · have hst : (toggleScreenShare me s dispOk offerOk connected).st = s := by
      unfold toggleScreenShare
      rw [if_pos hg]
    rw [hst]
    exact h
  · push_neg at hg
    obtain ⟨tracks, htr0⟩ := Option.ne_none_iff_exists'.mp hg.2
    have htr : streamTracks s = tracks := by simp [streamTracks, htr0]
    by_cases hsh : s.isScreenSharing = true
    · have hcf : s.isCameraOn = false := by
        cases hcv : s.isCameraOn with
        | false => rfl
        | true =>
          rw [h.notBoth hcv] at hsh
          simp at hsh
      have hstop := stopScreenSharing_st me s offerOk connected hg.1 hg.2
      have hst : (toggleScreenShare me s dispOk offerOk connected).st
          = { s with
                localStream := some (tracks.filter (fun t => !t.isScreen))
                isScreenSharing := false
                isCameraOn := false } := by
        unfold toggleScreenShare
        rw [if_neg (by simp [hg.1, hg.2]), if_pos hsh, hstop, htr]
      rw [hst]
      have hA : camCount (tracks.filter (fun t => !t.isScreen))
          = camCount tracks :=
        countP_filter_all _ _ tracks (fun t ht => by simp [isCam_not_isScreen t ht])
      have hB : screenCount (tracks.filter (fun t => !t.isScreen)) = 0 :=
        countP_filter_none _ _ tracks (fun t ht => by simp [ht])
      have hV := videoCount_eq (tracks.filter (fun t => !t.isScreen))
      have hcam0 : camCount tracks = 0 := htr ▸ h.noCam hcf
      refine ⟨?_, ?_, ?_, ?_, h.partReg, h.regEmpty, ?_, ?_⟩
      · show videoCount (tracks.filter (fun t => !t.isScreen)) ≤ 1
        omega
      · intro _
        exact hB
      · intro _
        show camCount (tracks.filter (fun t => !t.isScreen)) = 0
        omega
      · intro hsh2
        simp at hsh2
      · intro _
        simp
      · intro _
        rfl
    · have hshf : s.isScreenSharing = false := by simpa using hsh
      by_cases hdk : dispOk = true
      · by_cases hcc : s.isCameraOn = true
        · have hst : (toggleScreenShare me s dispOk offerOk connected).st
              = { s with
                    localStream := some ((tracks.filter (fun t => !t.isVideo))
                      ++ [⟨.screenVideo, true⟩])
                    isCameraOn := false
                    isScreenSharing := true } := by
            unfold toggleScreenShare
            rw [if_neg (by simp [hg.1, hg.2])]
            simp [hsh, hdk, hcc, streamTracks, htr0]
          rw [hst]
          have hA : camCount (tracks.filter (fun t => !t.isVideo)) = 0 :=
            countP_filter_none _ _ tracks (fun t ht => by simp [isCam_isVideo t ht])
          have hB : screenCount (tracks.filter (fun t => !t.isVideo)) = 0 :=
            countP_filter_none _ _ tracks (fun t ht => by simp [isScreen_isVideo t ht])
          have hV := videoCount_eq (tracks.filter (fun t => !t.isVideo))
          have hs1 : videoCount [(⟨.screenVideo, true⟩ : Track)] = 1 := by decide
          have hs2 : camCount [(⟨.screenVideo, true⟩ : Track)] = 0 := by decide
          refine ⟨?_, ?_, ?_, ?_, h.partReg, h.regEmpty, ?_, ?_⟩
          · show videoCount ((tracks.filter (fun t => !t.isVideo))
                ++ [⟨.screenVideo, true⟩]) ≤ 1
            rw [videoCount_append]
            omega
          · intro hsh2
            simp at hsh2
          · intro _
            show camCount ((tracks.filter (fun t => !t.isVideo))
                ++ [⟨.screenVideo, true⟩]) = 0
            rw [camCount_append]
            omega
          · intro _
            exact hg.1
          · intro _
            simp
          · intro hcm
            simp at hcm
        · have hccf : s.isCameraOn = false := by simpa using hcc
          have hst : (toggleScreenShare me s dispOk offerOk connected).st
              = { s with
                    localStream := some (tracks ++ [⟨.screenVideo, true⟩])
                    isScreenSharing := true } := by
            unfold toggleScreenShare
            rw [if_neg (by simp [hg.1, hg.2])]
            simp [hsh, hdk, hcc, streamTracks, htr0]
          rw [hst]
          have hcam0 : camCount tracks = 0 := htr ▸ h.noCam hccf
          have hscr0 : screenCount tracks = 0 := htr ▸ h.noScreen hshf
          have hv2 := videoCount_eq tracks
          have hs1 : videoCount [(⟨.screenVideo, true⟩ : Track)] = 1 := by decide
          have hs2 : camCount [(⟨.screenVideo, true⟩ : Track)] = 0 := by decide
          refine ⟨?_, ?_, ?_, ?_, h.partReg, h.regEmpty, ?_, ?_⟩
          · show videoCount (tracks ++ [⟨.screenVideo, true⟩]) ≤ 1
            rw [videoCount_append]
            omega
          · intro hsh2
            simp at hsh2
          · intro _
            show camCount (tracks ++ [⟨.screenVideo, true⟩]) = 0
            rw [camCount_append]
            omega
          · intro _
            exact hg.1
          · intro _
            simp
          · intro hcm
            exact absurd hcm hcc
      · have hst : (toggleScreenShare me s dispOk offerOk connected).st = s := by
          unfold toggleScreenShare
          rw [if_neg (by simp [hg.1, hg.2])]
          simp [hsh, hdk]
        rw [hst]
        exact h

/-- `true` on every operation except an accept whose post-media negotiation
fails. -/
def opAcceptOk : Op → Bool
  | .acceptIncomingCall _ negotiationOk _ => negotiationOk
  | _ => true

/-- An operation sequence in which accepting an incoming call never fails
after media acquisition. -/
def acceptsOk (ops : List Op) : Bool := ops.all opAcceptOk

theorem mediaInv_step (me : String) (s : CallState) (op : Op)
    (h : MediaInv s) (hop : opAcceptOk op = true) : MediaInv (step me s op).st := by
  cases op with
  | startGroupCall recipients mediaOk offerOk connected =>
    exact mediaInv_startGroupCall me s recipients mediaOk offerOk connected h
  | addToCall recipientId mediaOk offerOk connected =>
    exact mediaInv_addToCall me s recipientId mediaOk offerOk connected h
  | acceptIncomingCall mediaOk negotiationOk connected =>
    have hneg : negotiationOk = true := hop
    subst hneg
    exact mediaInv_acceptIncomingCall me s mediaOk connected h
  | rejectIncomingCall connected =>
    exact mediaInv_rejectIncomingCall me s connected h
  | endCall connected =>
    exact mediaInv_endCall me s connected
  | recvOffer senderId sdp ts renegOk connected =>
    exact mediaInv_recvOffer me s senderId sdp ts renegOk connected h
  | recvAnswer senderId applyOk =>
    exact mediaInv_recvAnswer s senderId applyOk h
  | recvCandidate senderId =>
    exact mediaInv_recvCandidate s senderId h
  | recvHangup senderId notifOk msgOk =>
    exact mediaInv_recvHangup me s senderId notifOk msgOk h
  | toggleMic offerOk connected =>
    exact mediaInv_toggleMic me s offerOk connected h
  | toggleCamera camOk offerOk connected =>
    exact mediaInv_toggleCamera me s camOk offerOk connected h
  | toggleScreenShare dispOk offerOk connected =>
    exact mediaInv_toggleScreenShare me s dispOk offerOk connected h

theorem mediaInv_applyOps (me : String) (ops : List Op) (s : CallState)
    (h : MediaInv s) (hops : acceptsOk ops = true) :
    MediaInv (applyOps me s ops) := by
  induction ops generalizing s with
  | nil => exact h
  | cons op rest ih =>
    have hop : opAcceptOk op = true ∧ acceptsOk rest = true := by
      simpa [acceptsOk] using hops
    exact ih _ (mediaInv_step me s op h hop.1) hop.2

/-- C5 (amended): along every operation sequence from the initial state in
which accepting an incoming call never fails after media acquisition, the
local capture stream holds at most one video track — turning the camera on
while screen sharing stops the screen track first and vice versa.  The
restriction is forced by the counterexample: a failed accept leaves a
registry entry and the pending offer behind, after which a hangup can
empty the registry while screen sharing stays active, and `toggleCamera`
then adds a camera track without `stopScreenSharing` (whose empty-registry
guard fires) removing the screen track. -/
theorem c5_amended_one_video (me : String) (ops : List Op)
    (hops : acceptsOk ops = true) :
    videoCount (streamTracks (applyOps me initState ops)) ≤ 1 :=
  (mediaInv_applyOps me ops initState mediaInv_init hops).vc

/-- Witness for the amended C5: a call to `B` followed by starting a screen
share satisfies the accept condition and keeps at most one video track. -/
theorem c5_amended_one_video_witness :
    acceptsOk [.startGroupCall ["B"] true (fun _ => true) true,
      .toggleScreenShare true (fun _ => true) true] = true
    ∧ videoCount (streamTracks (applyOps "A" initState
        [.startGroupCall ["B"] true (fun _ => true) true,
         .toggleScreenShare true (fun _ => true) true])) ≤ 1 :=
  ⟨by decide, c5_amended_one_video "A" _ (by decide)⟩

/-! ## C1 — phase Active iff participants non-empty -/

/-- The call-phase invariant: the session is in a call exactly when call
data exists, and existing call data never holds the empty participant
list. -/
def phaseInv (s : CallState) : Prop :=
  (s.isInCall = true ↔ s.activeCallData ≠ none) ∧ s.activeCallData ≠ some []

theorem phaseInv_cleanupCall (s : CallState) : phaseInv (cleanupCall s) := by
  simp [phaseInv, cleanupCall]

theorem phaseInv_of_fields (s u : CallState) (h : phaseInv s)
    (h1 : u.isInCall = s.isInCall) (h2 : u.activeCallData = s.activeCallData) :
    phaseInv u := by
  unfold phaseInv at h ⊢
  rw [h1, h2]
  exact h

theorem phaseInv_handleRemoteHangup (s : CallState) (x : String)
    (h : phaseInv s) : phaseInv (handleRemoteHangup s x) := by
  obtain ⟨h1, h2⟩ := h
  cases hd : s.activeCallData with
  | none =>
    have hst : handleRemoteHangup s x
        = { s with registry := s.registry.filter (fun r => r ≠ x) } := by
      unfold handleRemoteHangup
      simp only [hd]
    rw [hd] at h1
    rw [hst]
    constructor
    · simpa [hd] using h1
    · simp [hd]
  | some ps =>
    rw [hd] at h1 h2
    have hin : s.isInCall = true := by simpa using h1
    have hred : handleRemoteHangup s x
        = (if ps.filter (fun i => i ≠ x) = [] then
            cleanupCall
              { s with registry := s.registry.filter (fun r => r ≠ x) }
          else
            { s with
                registry := s.registry.filter (fun r => r ≠ x)
                activeCallData := some (ps.filter (fun i => i ≠ x)) }) := by
      unfold handleRemoteHangup
      simp only [hd]
    rw [hred]
    by_cases hni : ps.filter (fun i => i ≠ x) = []
    · rw [if_pos hni]
      exact phaseInv_cleanupCall _
    · rw [if_neg hni]
      constructor
      · simp [hin]
      · simpa using hni

theorem phaseInv_step (me : String) (s : CallState) (op : Op)
    (h : phaseInv s) : phaseInv (step me s op).st := by
  cases op with
  | startGroupCall recipients mediaOk offerOk connected =>
    show phaseInv (startGroupCall me s recipients mediaOk offerOk connected).st
    unfold startGroupCall
    split
    · exact h
    · next hrec =>
      cases hs : s.localStream with
      | some tracks => simp [phaseInv, hrec]
      | none =>
        cases mediaOk with
        | true => simp [phaseInv, hrec]
        | false => exact h
  | addToCall recipientId mediaOk offerOk connected =>
    show phaseInv (addToCall me s recipientId mediaOk offerOk connected).st
    unfold addToCall
    split
    · next hcond =>
      obtain ⟨hin, hdata⟩ := hcond
      obtain ⟨ps, hps⟩ := Option.ne_none_iff_exists'.mp hdata
      have hst : (initiateCallConnection me s recipientId mediaOk offerOk
          connected).st.activeCallData = some ps ∧
          (initiateCallConnection me s recipientId mediaOk offerOk
          connected).st.isInCall = s.isInCall := by
        unfold initiateCallConnection
        cases hs : s.localStream <;> cases mediaOk <;> cases offerOk <;>
          simp [hps]
      simp only [hst.1, Option.map_some]
      constructor
      · simp [hst.2, hin]
      · simp
    · exact h
  | acceptIncomingCall mediaOk negotiationOk connected =>
    show phaseInv (acceptIncomingCall me s mediaOk negotiationOk connected).st
    unfold acceptIncomingCall
    cases hic : s.incomingCall with
    | none => exact h
    | some ic =>
      cases mediaOk with
      | false => exact h
      | true =>
        cases negotiationOk with
        | false => exact h
        | true => simp [phaseInv]
  | rejectIncomingCall connected =>
    show phaseInv (rejectIncomingCall me s connected).st
    unfold rejectIncomingCall
    cases hic : s.incomingCall with
    | none => exact h
    | some ic => exact h
  | endCall connected =>
    exact phaseInv_cleanupCall s
  | recvOffer senderId sdp ts renegOk connected =>
    show phaseInv (recvOffer me s senderId sdp ts renegOk connected).st
    have hst : (recvOffer me s senderId sdp ts renegOk connected).st = s
        ∨ (recvOffer me s senderId sdp ts renegOk connected).st
          = { s with incomingCall := some ⟨senderId, ts, sdp⟩ } := by
      by_cases h1 : s.isInCall = true ∧ senderId ∉ s.activeCallData.getD []
      · left
        simp [recvOffer, h1]
      · by_cases h2 : s.isInCall = true ∧ senderId ∈ s.activeCallData.getD []
        · by_cases h3 : senderId ∈ s.registry ∧ renegOk = true
          · left
            simp [recvOffer, h1, h2, h3]
          · left
            simp [recvOffer, h1, h2, h3]
        · right
          simp [recvOffer, h1, h2]
    rcases hst with hst | hst <;> rw [hst]
    · exact h
    · exact h
  | recvAnswer senderId applyOk =>
    show phaseInv (recvAnswer s senderId applyOk).st
    by_cases hc : senderId ∈ s.registry ∧ applyOk = true
    · cases hd : s.activeCallData with
      | none =>
        have hst : (recvAnswer s senderId applyOk).st
            = { s with activeCallData := none } := by
          simp [recvAnswer, hc, hd]
        rw [hst]
        unfold phaseInv at h ⊢
        rw [hd] at h
        simpa using h
      | some ps =>
        unfold phaseInv at h
        rw [hd] at h
        have hin : s.isInCall = true := by simpa using h.1
        by_cases hm : senderId ∈ ps
        · have hst : (recvAnswer s senderId applyOk).st
              = { s with activeCallData := some ps } := by
            simp [recvAnswer, hc, hd, hm]
          rw [hst]
          constructor
          · simp [hin]
          · simpa using h.2
        · have hst : (recvAnswer s senderId applyOk).st
              = { s with activeCallData := some (ps ++ [senderId]) } := by
            simp [recvAnswer, hc, hd, hm]
          rw [hst]
          constructor
          · simp [hin]
          · simp
    · have hst : (recvAnswer s senderId applyOk).st = s := by
        simp [recvAnswer, hc]
      rw [hst]
      exact h
  | recvCandidate senderId => exact h
  | recvHangup senderId notifOk msgOk =>
    show phaseInv (recvHangup me s senderId notifOk msgOk).st
    cases hic : s.incomingCall with
    | none =>
      have hst : (recvHangup me s senderId notifOk msgOk).st
          = handleRemoteHangup s senderId := by
        simp [recvHangup, hic]
      rw [hst]
      exact phaseInv_handleRemoteHangup s senderId h
    | some ic =>
      by_cases hcal : ic.callerId = senderId
      · have hst : (recvHangup me s senderId notifOk msgOk).st
            = handleRemoteHangup { s with incomingCall := none } senderId := by
          simp [recvHangup, hic, hcal]
        rw [hst]
        exact phaseInv_handleRemoteHangup _ senderId h
      · have hst : (recvHangup me s senderId notifOk msgOk).st
            = handleRemoteHangup s senderId := by
          simp [recvHangup, hic, hcal]
        rw [hst]
        exact phaseInv_handleRemoteHangup s senderId h
  | toggleMic offerOk connected =>
    show phaseInv (toggleMic me s offerOk connected).st
    have hmt : (toggleMic me s offerOk connected).st.isInCall = s.isInCall
        ∧ (toggleMic me s offerOk connected).st.activeCallData
            = s.activeCallData := by
      unfold toggleMic
      cases s.localStream with
      | none => exact ⟨rfl, rfl⟩
      | some tracks =>
        by_cases ha : tracks.any (fun t => t.isAudio) <;>
          by_cases hm : (!s.isMicOn) = true <;>
            simp [ha, hm]
    exact phaseInv_of_fields s _ h hmt.1 hmt.2
  | toggleCamera camOk offerOk connected =>
    show phaseInv (toggleCamera me s camOk offerOk connected).st
    have hstop : (stopScreenSharing me s offerOk connected).st.isInCall
          = s.isInCall
        ∧ (stopScreenSharing me s offerOk connected).st.activeCallData
            = s.activeCallData := by
      unfold stopScreenSharing
      split <;> simp
    have hcam : (toggleCamera me s camOk offerOk connected).st.isInCall
          = s.isInCall
        ∧ (toggleCamera me s camOk offerOk connected).st.activeCallData
            = s.activeCallData := by
      unfold toggleCamera
      cases s.localStream with
      | none => exact ⟨rfl, rfl⟩
      | some tracks =>
        by_cases hc : s.isCameraOn = true
        · simp [hc]
        · by_cases hk : camOk = true
          · by_cases hsh : s.isScreenSharing = true <;>
              simp [hc, hk, hsh, hstop.1, hstop.2]
          · simp [hc, hk]
    exact phaseInv_of_fields s _ h hcam.1 hcam.2
  | toggleScreenShare dispOk offerOk connected =>
    show phaseInv (toggleScreenShare me s dispOk offerOk connected).st
    have hstop : (stopScreenSharing me s offerOk connected).st.isInCall
          = s.isInCall
        ∧ (stopScreenSharing me s offerOk connected).st.activeCallData
            = s.activeCallData := by
      unfold stopScreenSharing
      split <;> simp
    have hts : (toggleScreenShare me s dispOk offerOk connected).st.isInCall
          = s.isInCall
        ∧ (toggleScreenShare me s dispOk offerOk connected).st.activeCallData
            = s.activeCallData := by
      unfold toggleScreenShare
      by_cases hg : s.registry = [] ∨ s.localStream = none
      · simp [hg]
      · by_cases hsh : s.isScreenSharing = true
        · simp [hg, hsh, hstop.1, hstop.2]
        · by_cases hdi : dispOk = true
          · by_cases hc : s.isCameraOn = true <;> simp [hg, hsh, hdi, hc]
          · simp [hg, hsh, hdi]
    exact phaseInv_of_fields s _ h hts.1 hts.2

theorem phaseInv_applyOps (me : String) (ops : List Op) (s : CallState)
    (h : phaseInv s) : phaseInv (applyOps me s ops) := by
  induction ops generalizing s with
  | nil => exact h
  | cons op rest ih => exact ih _ (phaseInv_step me s op h)

/-- C1: along every sequence of call operations from the initial state —
outbound call starts, accepts, rejects, inbound signals including HANGUP,
explicit call end, and all media toggles, under every collaborator
outcome — the session is in a call exactly when the active participant
list is non-empty. -/
theorem c1_active_iff_participants (me : String) (ops : List Op) :
    (applyOps me initState ops).isInCall = true
    ↔ (applyOps me initState ops).activeCallData.getD [] ≠ [] := by
  obtain ⟨h1, h2⟩ :=
    phaseInv_applyOps me ops initState (by simp [phaseInv, initState])
  cases hd : (applyOps me initState ops).activeCallData with
  | none =>
    rw [hd] at h1
    have hin : (applyOps me initState ops).isInCall = false := by simpa using h1
    simp [hd, hin]
  | some ps =>
    rw [hd] at h1 h2
    have hin : (applyOps me initState ops).isInCall = true := by simpa using h1
    have hne : ps ≠ [] := by simpa using h2
    simp [hd, hin, hne]

end Nimo
